import Mathlib

/-!
Shallow embedding of the HIIT interval timer (src/App.tsx and the audio
service module).  The React component keeps its workout state in seven
`useState` cells (`moveTime`, `restTime`, `repetitions`, `status`,
`intervalType`, `currentRep`, `timeLeft`, `timeElapsed`); we gather them
into one record and translate each state-updating handler or effect into
a function on that record.  JavaScript numbers are modelled as `Int`
(all the arithmetic the timer performs is integer arithmetic on small
values).  Audio calls (`audioService.play*`) are modelled as an optional
emitted cue value per operation.
-/

namespace HIIT

/-- The `TimerStatus` enum from `./types` (used as `TimerStatus.Ready` etc. in
App.tsx). -/
inductive TimerStatus where
  | Ready
  | Running
  | Paused
  | Done
deriving DecidableEq, Repr

/-- The `IntervalType` enum from `./types` (`Move` / `Rest`). -/
inductive IntervalType where
  | Move
  | Rest
deriving DecidableEq, Repr

/-- The four distinct `audioService` calls App.tsx makes:
`playMoveSound`, `playRestSound`, `playCountdownBeep`,
`playFinishedSound`. -/
inductive Cue where
  | MoveStartCue
  | RestStartCue
  | CountdownBeep
  | FinishedCue
deriving DecidableEq, Repr

/-- The complete mutable state of the `App` component: the three
configuration cells and the five workout-state cells (App.tsx lines
46-56; the wall-clock `currentTime` cell is presentation only and is
omitted). -/
structure AppState where
  moveTime : Int
  restTime : Int
  repetitions : Int
  status : TimerStatus
  intervalType : IntervalType
  currentRep : Int
  timeLeft : Int
  timeElapsed : Int
deriving DecidableEq, Repr

/-- Initial state of the component: `useState(30)`, `useState(15)`,
`useState(8)`, status `Ready`, interval `Move`, rep `1`,
`timeLeft = moveTime`, `timeElapsed = 0` (App.tsx lines 46-56). -/
def initialState : AppState :=
  { moveTime := 30
    restTime := 15
    repetitions := 8
    status := TimerStatus.Ready
    intervalType := IntervalType.Move
    currentRep := 1
    timeLeft := 30
    timeElapsed := 0 }

/-- One firing of the `setInterval` callback of the workout-timer effect
(App.tsx lines 97-124): `timeElapsed` is incremented, `newTimeLeft =
timeLeft - 1`; a countdown beep plays when `newTimeLeft > 0 &&
newTimeLeft <= 3` (so never on a boundary tick, where `newTimeLeft ==
0`); at `newTimeLeft == 0` the phase boundary logic of lines 105-121
runs.  The at-most-one cue the callback plays is returned alongside the
next state. -/
def tick (s : AppState) : AppState × Option Cue :=
  let timeElapsed' := s.timeElapsed + 1
  let newTimeLeft := s.timeLeft - 1
  if newTimeLeft = 0 then
    match s.intervalType with
    | IntervalType.Move =>
      if s.currentRep = s.repetitions then
        ({ s with status := TimerStatus.Done, timeLeft := 0, timeElapsed := timeElapsed' },
         some Cue.FinishedCue)
      else
        ({ s with intervalType := IntervalType.Rest, timeLeft := s.restTime,
                  timeElapsed := timeElapsed' },
         some Cue.RestStartCue)
    | IntervalType.Rest =>
      ({ s with currentRep := s.currentRep + 1, intervalType := IntervalType.Move,
                timeLeft := s.moveTime, timeElapsed := timeElapsed' },
       some Cue.MoveStartCue)
  else
    ({ s with timeLeft := newTimeLeft, timeElapsed := timeElapsed' },
     if 0 < newTimeLeft ∧ newTimeLeft ≤ 3 then some Cue.CountdownBeep else none)

/-- One clock tick as delivered to the component: the workout-timer
effect arms the interval only while `isRunning` (App.tsx lines 92-95),
so a tick reaches the `tick` logic only in status `Running`. -/
def clockTick (s : AppState) : AppState × Option Cue :=
  if s.status = TimerStatus.Running then tick s else (s, none)

/-- Apply `n` successive clock ticks (discarding the cues). -/
def tickN : Nat → AppState → AppState
  | 0, s => s
  | Nat.succ n, s => tickN n (clockTick s).1

/-- Handler `handleReset` (App.tsx lines 129-135): status `Ready`, interval
`Move`, rep `1`, `timeLeft = moveTime`, `timeElapsed = 0`; the
configuration is untouched. -/
def handleReset (s : AppState) : AppState :=
  { s with status := TimerStatus.Ready
           intervalType := IntervalType.Move
           currentRep := 1
           timeLeft := s.moveTime
           timeElapsed := 0 }

/-- The start side-effects effect (App.tsx lines 138-146), run after a
status change with `prevStatus` the status of the previous render: when
the new status is `Running` and the previous one was `Ready` or `Done`,
`timeElapsed` is reset to 0, and `playMoveSound` fires only when the
previous status was `Ready`. -/
def startEffect (prevStatus : TimerStatus) (s : AppState) : AppState × Option Cue :=
  if s.status = TimerStatus.Running ∧
      (prevStatus = TimerStatus.Ready ∨ prevStatus = TimerStatus.Done) then
    ({ s with timeElapsed := 0 },
     if prevStatus = TimerStatus.Ready then some Cue.MoveStartCue else none)
  else
    (s, none)

/-- Handler `handleStartPause` (App.tsx lines 149-160) together with the start
side-effects effect it triggers.  From `Running` it pauses; otherwise
(from `Paused`, `Ready` or `Done`) it first performs `handleReset` when
the status is `Done`, then sets status `Running`.  All the `setState`
calls of one invocation are batched into a single re-render, so the
effect observes `prevStatus` equal to the status at entry. -/
def handleStartPause (s : AppState) : AppState × Option Cue :=
  if s.status = TimerStatus.Running then
    ({ s with status := TimerStatus.Paused }, none)
  else
    let s1 := if s.status = TimerStatus.Done then handleReset s else s
    startEffect s.status { s1 with status := TimerStatus.Running }

/-- The spec-level `pause()` command: the `Running` branch of the single
`handleStartPause` toggle, a no-op in any other status (the UI can only
reach that branch while `Running`, which is the spec's guard). -/
def pause (s : AppState) : AppState :=
  if s.status = TimerStatus.Running then (handleStartPause s).1 else s

/-- The spec-level `start()` command: the non-`Running` branch of the
single `handleStartPause` toggle, a no-op while already `Running` (the
UI can only reach that branch while not `Running`, which is the spec's
guard). -/
def start (s : AppState) : AppState × Option Cue :=
  if s.status = TimerStatus.Running then (s, none) else handleStartPause s

/-- The sanitisation every `InputField` applies to its raw input
(App.tsx line 24): `Math.max(1, parseInt(e.target.value, 10) || 1)`.
A non-numeric string parses to `NaN`, which `|| 1` turns into 1 (as it
does 0); we model the parse result as `Option Int` with `none` for
non-numeric input. -/
def sanitizeInput : Option Int → Int
  | none => 1
  | some n => max 1 n

/-- Editing the `Move` input (App.tsx line 230): the field is
`disabled={!isIdle}`, so a change is only applied while status is
`Ready` or `Done`; the value is sanitised by `InputField`; the resync
effect (lines 79-83) then sets `timeLeft` to the new `moveTime` when the
status is `Ready`. -/
def setMoveTime (s : AppState) (v : Option Int) : AppState :=
  if s.status = TimerStatus.Ready ∨ s.status = TimerStatus.Done then
    let m := sanitizeInput v
    if s.status = TimerStatus.Ready then
      { s with moveTime := m, timeLeft := m }
    else
      { s with moveTime := m }
  else
    s

/-- Editing the `Rest` input (App.tsx line 231): applied only while
idle; sanitised; no resync effect watches `restTime`. -/
def setRestTime (s : AppState) (v : Option Int) : AppState :=
  if s.status = TimerStatus.Ready ∨ s.status = TimerStatus.Done then
    { s with restTime := sanitizeInput v }
  else
    s

/-- Editing the `Reps` input (App.tsx line 232): applied only while
idle; sanitised; no other cell changes. -/
def setRepetitions (s : AppState) (v : Option Int) : AppState :=
  if s.status = TimerStatus.Ready ∨ s.status = TimerStatus.Done then
    { s with repetitions := sanitizeInput v }
  else
    s

/-- Derived value `totalWorkoutTime` (App.tsx lines 68-71). -/
def totalWorkoutTime (s : AppState) : Int :=
  if s.repetitions ≤ 0 then 0
  else s.moveTime * s.repetitions + s.restTime * (s.repetitions - 1)

/-- The freshly started workout state for a given configuration:
status `Running`, phase `Move`, rep 1, `timeLeft = moveTime`,
`timeElapsed = 0` (what `handleStartPause` produces from the canonical
`Ready` state). -/
def freshStart (M R P : Int) : AppState :=
  { moveTime := M
    restTime := R
    repetitions := P
    status := TimerStatus.Running
    intervalType := IntervalType.Move
    currentRep := 1
    timeLeft := M
    timeElapsed := 0 }

/-- The states of the component reachable from its initial render by
user commands (the start/pause button, the reset button, the three
input fields) and clock ticks. -/
inductive Reachable : AppState → Prop where
  | init : Reachable initialState
  | tick {s} : Reachable s → Reachable (clockTick s).1
  | startPause {s} : Reachable s → Reachable (handleStartPause s).1
  | reset {s} : Reachable s → Reachable (handleReset s)
  | moveInput {s} (v : Option Int) : Reachable s → Reachable (setMoveTime s v)
  | restInput {s} (v : Option Int) : Reachable s → Reachable (setRestTime s v)
  | repsInput {s} (v : Option Int) : Reachable s → Reachable (setRepetitions s v)

/-- A `Done` state exactly as a finished default-configuration workout
leaves it. -/
def finishedDefault : AppState :=
  { initialState with status := TimerStatus.Done, currentRep := 8,
                      timeLeft := 0, timeElapsed := 345 }

/-- The `Done` state a finished move 3 / rest 2 / 2-reps workout leaves
behind. -/
def finishedSmall : AppState :=
  { freshStart 3 2 2 with status := TimerStatus.Done, currentRep := 2,
                          timeLeft := 0, timeElapsed := 8 }

/-- The inductive invariant of the component's reachable states: the
configuration is positive, `currentRep` starts at 1 and stays within
`repetitions` except possibly at `Done` (where a later configuration
edit can lower `repetitions` below the finished rep count), a Rest phase
always has further repetitions ahead, `Done` is only produced at the end
of a Move phase with `timeLeft = 0`, `Ready` states are canonical, and a
running or paused phase has at least one second left. -/
structure Inv (s : AppState) : Prop where
  move_pos : 1 ≤ s.moveTime
  rest_pos : 1 ≤ s.restTime
  reps_pos : 1 ≤ s.repetitions
  rep_lb : 1 ≤ s.currentRep
  rep_ub : s.status ≠ TimerStatus.Done → s.currentRep ≤ s.repetitions
  rest_lt : s.intervalType = IntervalType.Rest → s.currentRep < s.repetitions
  done_move : s.status = TimerStatus.Done → s.intervalType = IntervalType.Move
  ready_rep : s.status = TimerStatus.Ready → s.currentRep = 1
  ready_move : s.status = TimerStatus.Ready → s.intervalType = IntervalType.Move
  ready_tl : s.status = TimerStatus.Ready → s.timeLeft = s.moveTime
  run_tl : s.status = TimerStatus.Running → 1 ≤ s.timeLeft
  pause_tl : s.status = TimerStatus.Paused → 1 ≤ s.timeLeft
  done_tl : s.status = TimerStatus.Done → s.timeLeft = 0

/-- Seconds of ticking left until the workout completes: the rest of the
current phase plus all phases still ahead of it. -/
def remaining (s : AppState) : Int :=
  match s.intervalType with
  | IntervalType.Move =>
      s.timeLeft + (s.repetitions - s.currentRep) * (s.restTime + s.moveTime)
  | IntervalType.Rest =>
      s.timeLeft + s.moveTime +
        (s.repetitions - s.currentRep - 1) * (s.restTime + s.moveTime)

/-- Configuration edited at `Ready` to move 1 / rest 1 / 2 reps. -/
def editedSmall : AppState :=
  setRepetitions (setRestTime (setMoveTime initialState (some 1)) (some 1)) (some 2)

/-- The `editedSmall` workout started and run for its full 3 ticks,
reaching `Done` with `currentRep = 2`. -/
def ranSmall : AppState :=
  (clockTick (clockTick (clockTick (handleStartPause editedSmall).1).1).1).1

/-- State `ranSmall` after lowering the Reps input to 1 while `Done`: a
reachable state whose `currentRep` (2) exceeds `repetitions` (1). -/
def editedAfterDone : AppState :=
  setRepetitions ranSmall (some 1)

/-! ### Theorems -/

/-- C1: for every Running state whose `timeLeft` is 1 (so the tick's
decrement reaches 0), one tick performs exactly the phase-boundary
transition: Move with `currentRep = repetitions` goes to `Done` with
`timeLeft = 0` and the finished cue; Move with `currentRep <
repetitions` goes to Rest with `timeLeft = restTime`, rep unchanged, and
the rest-start cue; Rest goes to Move with `timeLeft = moveTime`,
`currentRep + 1`, and the move-start cue.  In particular a
single-repetition workout goes straight to `Done`, never entering
Rest. -/
theorem tick_phase_boundary (s : AppState)
    (hrun : s.status = TimerStatus.Running) (htl : s.timeLeft = 1) :
    (s.intervalType = IntervalType.Move → s.currentRep = s.repetitions →
      tick s = ({ s with status := TimerStatus.Done, timeLeft := 0,
                         timeElapsed := s.timeElapsed + 1 }, some Cue.FinishedCue)) ∧
    (s.intervalType = IntervalType.Move → s.currentRep < s.repetitions →
      tick s = ({ s with intervalType := IntervalType.Rest, timeLeft := s.restTime,
                         timeElapsed := s.timeElapsed + 1 }, some Cue.RestStartCue)) ∧
    (s.intervalType = IntervalType.Rest →
      tick s = ({ s with intervalType := IntervalType.Move, currentRep := s.currentRep + 1,
                         timeLeft := s.moveTime,
                         timeElapsed := s.timeElapsed + 1 }, some Cue.MoveStartCue)) ∧
    (s.repetitions = 1 → s.currentRep = 1 → s.intervalType = IntervalType.Move →
      (tick s).1.status = TimerStatus.Done ∧
      (tick s).1.intervalType = IntervalType.Move) := by
  refine ⟨?_, ?_, ?_, ?_⟩
  · intro hmv hrep
    simp [tick, htl, hmv, hrep]
  · intro hmv hrep
    have hne : s.currentRep ≠ s.repetitions := by omega
    simp [tick, htl, hmv, hne]
  · intro hrs
    simp [tick, htl, hrs]
  · intro hone hrep hmv
    simp [tick, htl, hmv, hrep, hone]

/-- Witness for C1 at a concrete Running state: move 5, rest 4, 3 reps,
first rep, one second left in the Move phase. -/
theorem tick_phase_boundary_witness :
    (tick { freshStart 5 4 3 with timeLeft := 1 }).2 = some Cue.RestStartCue := by
  have h := (tick_phase_boundary { freshStart 5 4 3 with timeLeft := 1 }
    rfl rfl).2.1 rfl (by decide)
  rw [h]

/-- C3: for every Running state with `timeLeft ≥ 2`, one tick only
decrements `timeLeft` and increments `timeElapsed`; status, phase,
`currentRep` and the configuration are untouched. -/
theorem tick_frame (s : AppState)
    (hrun : s.status = TimerStatus.Running) (htl : 2 ≤ s.timeLeft) :
    (tick s).1 = { s with timeLeft := s.timeLeft - 1,
                          timeElapsed := s.timeElapsed + 1 } := by
  have hne : ¬ s.timeLeft - 1 = 0 := by omega
  simp [tick, hne]

/-- Witness for C3: second 3 of a 5-second Move phase. -/
theorem tick_frame_witness :
    (tick { freshStart 5 4 3 with timeLeft := 3 }).1 =
      { freshStart 5 4 3 with timeLeft := 2, timeElapsed := 1 } := by
  have h := tick_frame { freshStart 5 4 3 with timeLeft := 3 } rfl (by decide)
  rw [h]
  rfl

/-- C7: `handleReset` yields the canonical Ready state from any state:
status Ready, phase Move, rep 1, `timeLeft = moveTime`, `timeElapsed =
0`, configuration unchanged. -/
theorem reset_canonical (s : AppState) :
    (handleReset s).status = TimerStatus.Ready ∧
    (handleReset s).intervalType = IntervalType.Move ∧
    (handleReset s).currentRep = 1 ∧
    (handleReset s).timeLeft = s.moveTime ∧
    (handleReset s).timeElapsed = 0 ∧
    (handleReset s).moveTime = s.moveTime ∧
    (handleReset s).restTime = s.restTime ∧
    (handleReset s).repetitions = s.repetitions := by
  simp [handleReset]

/-- C8: the tick emits the countdown beep exactly when the decremented
`timeLeft` lands in {3, 2, 1}; on a boundary tick (decremented
`timeLeft` is 0) the emitted cue is the phase-boundary cue — finish,
rest-start or move-start — and never the beep.  `tick` returns at most
one `Option Cue`, so no tick emits two cues. -/
theorem tick_cue_discipline (s : AppState) :
    ((tick s).2 = some Cue.CountdownBeep ↔
      (s.timeLeft - 1 = 3 ∨ s.timeLeft - 1 = 2 ∨ s.timeLeft - 1 = 1)) ∧
    (s.timeLeft - 1 = 0 →
      (tick s).2 = some (match s.intervalType with
        | IntervalType.Move =>
            if s.currentRep = s.repetitions then Cue.FinishedCue else Cue.RestStartCue
        | IntervalType.Rest => Cue.MoveStartCue) ∧
      (tick s).2 ≠ some Cue.CountdownBeep) := by
  constructor
  · by_cases h0 : s.timeLeft - 1 = 0
    · cases hiv : s.intervalType <;>
        by_cases hcr : s.currentRep = s.repetitions <;>
        simp [tick, h0, hiv, hcr]
    · by_cases h3 : 0 < s.timeLeft - 1 ∧ s.timeLeft - 1 ≤ 3
      · simp [tick, h0, h3]
        omega
      · simp [tick, h0, h3]
        omega
  · intro h0
    cases hiv : s.intervalType <;>
      by_cases hcr : s.currentRep = s.repetitions <;>
      simp [tick, h0, hiv, hcr]

/-- Witness for C8 at the final second of the last repetition: the
finished cue fires and the beep is suppressed. -/
theorem tick_cue_discipline_witness :
    (tick { freshStart 3 2 2 with timeLeft := 1, currentRep := 2 }).2 ≠
      some Cue.CountdownBeep :=
  ((tick_cue_discipline { freshStart 3 2 2 with timeLeft := 1, currentRep := 2 }).2
    (by decide)).2

/-- C9: a configuration edit is a no-op unless the status is Ready or
Done (the inputs are `disabled={!isIdle}`); an applied value is the
sanitised input, which is at least 1, with non-numeric or non-positive
raw input becoming exactly 1; and while Ready an edit of the Move field
immediately resynchronises `timeLeft` to the new `moveTime`. -/
theorem setConfiguration_guarded (s : AppState) (v : Option Int) :
    (¬(s.status = TimerStatus.Ready ∨ s.status = TimerStatus.Done) →
      setMoveTime s v = s ∧ setRestTime s v = s ∧ setRepetitions s v = s) ∧
    ((s.status = TimerStatus.Ready ∨ s.status = TimerStatus.Done) →
      (setMoveTime s v).moveTime = sanitizeInput v ∧
      (setRestTime s v).restTime = sanitizeInput v ∧
      (setRepetitions s v).repetitions = sanitizeInput v) ∧
    1 ≤ sanitizeInput v ∧
    ((v = none ∨ ∃ n, v = some n ∧ n ≤ 0) → sanitizeInput v = 1) ∧
    (s.status = TimerStatus.Ready →
      (setMoveTime s v).timeLeft = sanitizeInput v) := by
  refine ⟨?_, ?_, ?_, ?_, ?_⟩
  · intro h
    simp [setMoveTime, setRestTime, setRepetitions, h]
  · intro h
    rcases h with h | h <;>
      simp [setMoveTime, setRestTime, setRepetitions, h]
  · cases v with
    | none => simp [sanitizeInput]
    | some n => simp [sanitizeInput]
  · rintro (rfl | ⟨n, rfl, hn⟩)
    · rfl
    · simp [sanitizeInput]
      omega
  · intro hr
    simp [setMoveTime, hr]

/-- Witness for C9: editing the Move field to 0 while Paused is
rejected; the same edit while Ready clamps to 1 and resyncs
`timeLeft`. -/
theorem setConfiguration_guarded_witness :
    setMoveTime { freshStart 5 4 3 with status := TimerStatus.Paused } (some 0) =
      { freshStart 5 4 3 with status := TimerStatus.Paused } :=
  ((setConfiguration_guarded
    { freshStart 5 4 3 with status := TimerStatus.Paused } (some 0)).1
    (by decide)).1

/-- C6: `pause()` is a no-op from any status other than Running (so a
second consecutive `pause()` changes nothing), and `start()` while
already Running is a no-op. -/
theorem pause_start_idempotent (s : AppState) :
    (s.status ≠ TimerStatus.Running → pause s = s) ∧
    pause (pause s) = pause s ∧
    (s.status = TimerStatus.Running → start s = (s, none)) := by
  refine ⟨fun h => by simp [pause, h], ?_, ?_⟩
  · by_cases h : s.status = TimerStatus.Running
    · have h1 : pause s = { s with status := TimerStatus.Paused } := by
        simp [pause, handleStartPause, h]
      rw [h1]
      simp [pause]
    · simp [pause, h]
  · intro h
    simp [start, h]

/-- Witness for C6: starting an already-running workout changes
nothing. -/
theorem pause_start_idempotent_witness :
    start (freshStart 3 2 2) = (freshStart 3 2 2, none) :=
  (pause_start_idempotent (freshStart 3 2 2)).2.2 rfl

/-- Counterexample to C5 as stated: pressing start in a Done state does
restart the workout (status Running), but no `MoveStartCue` is emitted —
the start side-effects effect plays the move sound only when the
previous status was Ready (App.tsx lines 142-144), and a restart from
Done has previous status Done. -/
theorem startFromDone_cue_cex :
    finishedDefault.status = TimerStatus.Done ∧
    (handleStartPause finishedDefault).1.status = TimerStatus.Running ∧
    (handleStartPause finishedDefault).1.timeElapsed = 0 ∧
    ¬ (handleStartPause finishedDefault).2 = some Cue.MoveStartCue := by
  refine ⟨rfl, rfl, rfl, ?_⟩
  decide

/-- C5 amended: `start()` from Done performs the implicit reset
immediately followed by the Ready→Running transition — the result is
Running with phase Move, rep 1, `timeLeft = moveTime` and `timeElapsed =
0` — but no cue is emitted (the move-start cue plays only when starting
from Ready). -/
theorem startFromDone_resets (s : AppState) (h : s.status = TimerStatus.Done) :
    handleStartPause s =
      ({ s with status := TimerStatus.Running, intervalType := IntervalType.Move,
                currentRep := 1, timeLeft := s.moveTime, timeElapsed := 0 }, none) := by
  simp [handleStartPause, h, handleReset, startEffect]

/-- Witness for C5 (amended) at a concrete finished workout. -/
theorem startFromDone_resets_witness :
    handleStartPause finishedSmall =
      ({ finishedSmall with status := TimerStatus.Running, currentRep := 1,
                            timeLeft := 3, timeElapsed := 0 }, none) := by
  have h := startFromDone_resets finishedSmall rfl
  rw [h]
  rfl

/-- The sanitised value of any raw input is at least 1. -/
theorem one_le_sanitizeInput (v : Option Int) : 1 ≤ sanitizeInput v := by
  cases v with
  | none => simp [sanitizeInput]
  | some n => simp [sanitizeInput]

/-- The invariant is preserved by one firing of the workout-timer
callback in a Running state. -/
theorem inv_tick (s : AppState) (hI : Inv s)
    (hr : s.status = TimerStatus.Running) : Inv (tick s).1 := by
  obtain ⟨h1, h2, h3, h4, h5, h6, h7, h8, h9, h10, h11, h12, h13⟩ := hI
  have htl : 1 ≤ s.timeLeft := h11 hr
  have hub : s.currentRep ≤ s.repetitions := h5 (by simp [hr])
  by_cases h0 : s.timeLeft - 1 = 0
  · cases hiv : s.intervalType with
    | Move =>
      by_cases hcr : s.currentRep = s.repetitions
      · refine ⟨?_, ?_, ?_, ?_, ?_, ?_, ?_, ?_, ?_, ?_, ?_, ?_, ?_⟩ <;>
          simp [tick, h0, hiv, hcr] <;> omega
      · refine ⟨?_, ?_, ?_, ?_, ?_, ?_, ?_, ?_, ?_, ?_, ?_, ?_, ?_⟩ <;>
          simp [tick, h0, hiv, hcr, hr] <;> omega
    | Rest =>
      have hlt : s.currentRep < s.repetitions := h6 hiv
      refine ⟨?_, ?_, ?_, ?_, ?_, ?_, ?_, ?_, ?_, ?_, ?_, ?_, ?_⟩ <;>
        simp [tick, h0, hiv, hr] <;> omega
  · refine ⟨?_, ?_, ?_, ?_, ?_, ?_, ?_, ?_, ?_, ?_, ?_, ?_, ?_⟩ <;>
      simp [tick, h0, hr] <;> first | omega | (intro h; simp [h] at *) <;> omega

/-- The invariant is preserved by a clock tick. -/
theorem inv_clockTick (s : AppState) (hI : Inv s) : Inv (clockTick s).1 := by
  by_cases hr : s.status = TimerStatus.Running
  · simpa [clockTick, hr] using inv_tick s hI hr
  · simpa [clockTick, hr] using hI

/-- The invariant is preserved by `handleReset`. -/
theorem inv_reset (s : AppState) (hI : Inv s) : Inv (handleReset s) := by
  obtain ⟨h1, h2, h3, h4, h5, h6, h7, h8, h9, h10, h11, h12, h13⟩ := hI
  refine ⟨?_, ?_, ?_, ?_, ?_, ?_, ?_, ?_, ?_, ?_, ?_, ?_, ?_⟩ <;>
    simp [handleReset] <;> omega

/-- The invariant is preserved by the start/pause button. -/
theorem inv_startPause (s : AppState) (hI : Inv s) :
    Inv (handleStartPause s).1 := by
  obtain ⟨h1, h2, h3, h4, h5, h6, h7, h8, h9, h10, h11, h12, h13⟩ := hI
  cases hs : s.status with
  | Running =>
    have hub : s.currentRep ≤ s.repetitions := h5 (by simp [hs])
    have htl : 1 ≤ s.timeLeft := h11 hs
    refine ⟨?_, ?_, ?_, ?_, ?_, ?_, ?_, ?_, ?_, ?_, ?_, ?_, ?_⟩ <;>
      simp [handleStartPause, hs] <;> first | omega | exact h6
  | Ready =>
    have hub : s.currentRep ≤ s.repetitions := h5 (by simp [hs])
    have htl : s.timeLeft = s.moveTime := h10 hs
    refine ⟨?_, ?_, ?_, ?_, ?_, ?_, ?_, ?_, ?_, ?_, ?_, ?_, ?_⟩ <;>
      simp [handleStartPause, startEffect, hs] <;> first | omega | exact h6
  | Paused =>
    have hub : s.currentRep ≤ s.repetitions := h5 (by simp [hs])
    have htl : 1 ≤ s.timeLeft := h12 hs
    refine ⟨?_, ?_, ?_, ?_, ?_, ?_, ?_, ?_, ?_, ?_, ?_, ?_, ?_⟩ <;>
      simp [handleStartPause, startEffect, hs] <;> first | omega | exact h6
  | Done =>
    refine ⟨?_, ?_, ?_, ?_, ?_, ?_, ?_, ?_, ?_, ?_, ?_, ?_, ?_⟩ <;>
      simp [handleStartPause, handleReset, startEffect, hs] <;> omega

/-- The invariant is preserved by an edit of the Move input. -/
theorem inv_setMoveTime (s : AppState) (v : Option Int) (hI : Inv s) :
    Inv (setMoveTime s v) := by
  obtain ⟨h1, h2, h3, h4, h5, h6, h7, h8, h9, h10, h11, h12, h13⟩ := hI
  have hv := one_le_sanitizeInput v
  by_cases hid : s.status = TimerStatus.Ready ∨ s.status = TimerStatus.Done
  · rcases hid with hs | hs
    · have hub : s.currentRep ≤ s.repetitions := h5 (by simp [hs])
      have hmv : s.intervalType = IntervalType.Move := h9 hs
      refine ⟨?_, ?_, ?_, ?_, ?_, ?_, ?_, ?_, ?_, ?_, ?_, ?_, ?_⟩ <;>
        simp [setMoveTime, hs, h8, hmv] <;> omega
    · have hmv : s.intervalType = IntervalType.Move := h7 hs
      refine ⟨?_, ?_, ?_, ?_, ?_, ?_, ?_, ?_, ?_, ?_, ?_, ?_, ?_⟩ <;>
        simp [setMoveTime, hs, hmv, h13] <;> omega
  · simpa [setMoveTime, hid] using
      ⟨h1, h2, h3, h4, h5, h6, h7, h8, h9, h10, h11, h12, h13⟩

/-- The invariant is preserved by an edit of the Rest input. -/
theorem inv_setRestTime (s : AppState) (v : Option Int) (hI : Inv s) :
    Inv (setRestTime s v) := by
  obtain ⟨h1, h2, h3, h4, h5, h6, h7, h8, h9, h10, h11, h12, h13⟩ := hI
  have hv := one_le_sanitizeInput v
  by_cases hid : s.status = TimerStatus.Ready ∨ s.status = TimerStatus.Done
  · rcases hid with hs | hs
    · have hub : s.currentRep ≤ s.repetitions := h5 (by simp [hs])
      have hmv : s.intervalType = IntervalType.Move := h9 hs
      refine ⟨?_, ?_, ?_, ?_, ?_, ?_, ?_, ?_, ?_, ?_, ?_, ?_, ?_⟩ <;>
        simp [setRestTime, hs, h8, h10, hmv] <;> omega
    · have hmv : s.intervalType = IntervalType.Move := h7 hs
      refine ⟨?_, ?_, ?_, ?_, ?_, ?_, ?_, ?_, ?_, ?_, ?_, ?_, ?_⟩ <;>
        simp [setRestTime, hs, hmv, h13] <;> omega
  · simpa [setRestTime, hid] using
      ⟨h1, h2, h3, h4, h5, h6, h7, h8, h9, h10, h11, h12, h13⟩

/-- The invariant is preserved by an edit of the Reps input. -/
theorem inv_setRepetitions (s : AppState) (v : Option Int) (hI : Inv s) :
    Inv (setRepetitions s v) := by
  obtain ⟨h1, h2, h3, h4, h5, h6, h7, h8, h9, h10, h11, h12, h13⟩ := hI
  have hv := one_le_sanitizeInput v
  by_cases hid : s.status = TimerStatus.Ready ∨ s.status = TimerStatus.Done
  · rcases hid with hs | hs
    · have hrep : s.currentRep = 1 := h8 hs
      have hmv : s.intervalType = IntervalType.Move := h9 hs
      refine ⟨?_, ?_, ?_, ?_, ?_, ?_, ?_, ?_, ?_, ?_, ?_, ?_, ?_⟩ <;>
        simp [setRepetitions, hs, hrep, hmv, h10] <;> omega
    · have hmv : s.intervalType = IntervalType.Move := h7 hs
      refine ⟨?_, ?_, ?_, ?_, ?_, ?_, ?_, ?_, ?_, ?_, ?_, ?_, ?_⟩ <;>
        simp [setRepetitions, hs, hmv, h13] <;> omega
  · simpa [setRepetitions, hid] using
      ⟨h1, h2, h3, h4, h5, h6, h7, h8, h9, h10, h11, h12, h13⟩

/-- Every reachable state of the component satisfies the invariant. -/
theorem reachable_inv (s : AppState) (h : Reachable s) : Inv s := by
  induction h with
  | init => refine ⟨?_, ?_, ?_, ?_, ?_, ?_, ?_, ?_, ?_, ?_, ?_, ?_, ?_⟩ <;> decide
  | tick _ ih => exact inv_clockTick _ ih
  | startPause _ ih => exact inv_startPause _ ih
  | reset _ ih => exact inv_reset _ ih
  | moveInput v _ ih => exact inv_setMoveTime _ v ih
  | restInput v _ ih => exact inv_setRestTime _ v ih
  | repsInput v _ ih => exact inv_setRepetitions _ v ih

/-- Counterexample to C4 as stated: the state reached by configuring
move 1 / rest 1 / 2 reps, running the workout to `Done` (which leaves
`currentRep = 2`), and then lowering the Reps input to 1 — the inputs
are enabled again at `Done` — is reachable and has `currentRep = 2 >
repetitions = 1`. -/
theorem currentRep_exceeds_reps_cex :
    Reachable editedAfterDone ∧
    editedAfterDone.status = TimerStatus.Done ∧
    editedAfterDone.currentRep = 2 ∧
    editedAfterDone.repetitions = 1 ∧
    ¬ editedAfterDone.currentRep ≤ editedAfterDone.repetitions := by
  refine ⟨?_, by decide, by decide, by decide, by decide⟩
  exact Reachable.repsInput (some 1)
    (Reachable.tick (Reachable.tick (Reachable.tick
      (Reachable.startPause
        (Reachable.repsInput (some 2)
          (Reachable.restInput (some 1)
            (Reachable.moveInput (some 1) Reachable.init)))))))

/-- C4 amended: in every reachable state `1 ≤ currentRep`, and
`currentRep ≤ repetitions` in every reachable state whose status is not
`Done` (at `Done` a configuration edit may lower `repetitions` below the
finished rep count); a tick increments `currentRep` by exactly 1 at a
Rest→Move boundary (`phase = Rest`, `timeLeft = 1`) and leaves it
unchanged on every other tick. -/
theorem currentRep_invariant :
    (∀ s : AppState, Reachable s →
      1 ≤ s.currentRep ∧
      (s.status ≠ TimerStatus.Done → s.currentRep ≤ s.repetitions)) ∧
    (∀ s : AppState,
      ((s.intervalType = IntervalType.Rest ∧ s.timeLeft = 1) →
        (tick s).1.currentRep = s.currentRep + 1) ∧
      (¬(s.intervalType = IntervalType.Rest ∧ s.timeLeft = 1) →
        (tick s).1.currentRep = s.currentRep)) := by
  constructor
  · intro s h
    have hI := reachable_inv s h
    exact ⟨hI.rep_lb, hI.rep_ub⟩
  · intro s
    constructor
    · rintro ⟨hiv, htl⟩
      simp [tick, htl, hiv]
    · intro h
      by_cases h0 : s.timeLeft - 1 = 0
      · cases hiv : s.intervalType with
        | Move =>
          by_cases hcr : s.currentRep = s.repetitions <;>
            simp [tick, h0, hiv, hcr]
        | Rest => exact absurd ⟨hiv, by omega⟩ h
      · simp [tick, h0]

/-- Witness for C4 (amended): the initial state has `currentRep = 1`,
and the last tick of a Rest phase bumps the rep from 1 to 2. -/
theorem currentRep_invariant_witness :
    1 ≤ initialState.currentRep ∧
    (tick { freshStart 3 2 2 with intervalType := IntervalType.Rest, timeLeft := 1 }).1.currentRep = 2 := by
  constructor
  · exact (currentRep_invariant.1 initialState Reachable.init).1
  · have h := (currentRep_invariant.2
      { freshStart 3 2 2 with intervalType := IntervalType.Rest, timeLeft := 1 }).1
      ⟨rfl, rfl⟩
    rw [h]
    rfl

/-- C10: every reachable Running state has `timeLeft ≥ 1`, so the
tick's decrement never stores a negative `timeLeft`, and `timeLeft ≥ 0`
holds in every reachable state. -/
theorem timeLeft_bounds (s : AppState) (h : Reachable s) :
    (s.status = TimerStatus.Running → 1 ≤ s.timeLeft) ∧
    0 ≤ s.timeLeft ∧
    (s.status = TimerStatus.Running → 0 ≤ (tick s).1.timeLeft) := by
  have hI := reachable_inv s h
  obtain ⟨h1, h2, h3, h4, h5, h6, h7, h8, h9, h10, h11, h12, h13⟩ := hI
  refine ⟨h11, ?_, ?_⟩
  · cases hs : s.status
    case Ready => have := h10 hs; omega
    case Running => have := h11 hs; omega
    case Paused => have := h12 hs; omega
    case Done => have := h13 hs; omega
  · intro hr
    have htl := h11 hr
    by_cases h0 : s.timeLeft - 1 = 0
    · cases hiv : s.intervalType with
      | Move =>
        by_cases hcr : s.currentRep = s.repetitions <;>
          simp [tick, h0, hiv, hcr] <;> omega
      | Rest => simp [tick, h0, hiv]; omega
    · simp [tick, h0]; omega

/-- Witness for C10 at the initial state. -/
theorem timeLeft_bounds_witness : 0 ≤ initialState.timeLeft :=
  (timeLeft_bounds initialState Reachable.init).2.1

/-- A running state satisfying the invariant has at least one tick left
before completion. -/
theorem remaining_pos (s : AppState) (hI : Inv s)
    (hr : s.status = TimerStatus.Running) : 1 ≤ remaining s := by
  obtain ⟨h1, h2, h3, h4, h5, h6, h7, h8, h9, h10, h11, h12, h13⟩ := hI
  have htl := h11 hr
  have hub := h5 (by simp [hr])
  cases hiv : s.intervalType with
  | Move =>
    have hk : 0 ≤ (s.repetitions - s.currentRep) * (s.restTime + s.moveTime) :=
      mul_nonneg (by omega) (by omega)
    simp [remaining, hiv]
    linarith
  | Rest =>
    have hlt := h6 hiv
    have hk : 0 ≤ (s.repetitions - s.currentRep - 1) * (s.restTime + s.moveTime) :=
      mul_nonneg (by omega) (by omega)
    simp [remaining, hiv]
    linarith

/-- One tick of a running state satisfying the invariant: with exactly
one second remaining the workout completes, and with at least two the
state keeps running and the seconds remaining drop by exactly one. -/
theorem tick_remaining (s : AppState) (hI : Inv s)
    (hr : s.status = TimerStatus.Running) :
    (remaining s = 1 → (tick s).1.status = TimerStatus.Done) ∧
    (2 ≤ remaining s →
      (tick s).1.status = TimerStatus.Running ∧
      remaining (tick s).1 = remaining s - 1) := by
  obtain ⟨h1, h2, h3, h4, h5, h6, h7, h8, h9, h10, h11, h12, h13⟩ := hI
  have htl := h11 hr
  have hub := h5 (by simp [hr])
  constructor
  · intro hrem
    cases hiv : s.intervalType with
    | Move =>
      simp [remaining, hiv] at hrem
      have hcase : s.currentRep = s.repetitions := by
        by_contra hne
        have hge : 1 ≤ s.repetitions - s.currentRep := by omega
        have hmono : (1 : Int) * (s.restTime + s.moveTime) ≤
            (s.repetitions - s.currentRep) * (s.restTime + s.moveTime) :=
          mul_le_mul_of_nonneg_right hge (by omega)
        rw [one_mul] at hmono
        linarith
      rw [hcase] at hrem
      simp at hrem
      simp [tick, hiv, hcase, show s.timeLeft - 1 = 0 by omega]
    | Rest =>
      exfalso
      have hlt := h6 hiv
      simp [remaining, hiv] at hrem
      have hk : 0 ≤ (s.repetitions - s.currentRep - 1) * (s.restTime + s.moveTime) :=
        mul_nonneg (by omega) (by omega)
      linarith
  · intro hrem2
    by_cases h0 : s.timeLeft - 1 = 0
    · cases hiv : s.intervalType with
      | Move =>
        by_cases hcr : s.currentRep = s.repetitions
        · exfalso
          simp [remaining, hiv, hcr] at hrem2
          omega
        · refine ⟨by simp [tick, h0, hiv, hcr, hr], ?_⟩
          have htl1 : s.timeLeft = 1 := by omega
          simp [tick, h0, hiv, hcr, remaining]
          rw [htl1]
          ring
      | Rest =>
        refine ⟨by simp [tick, h0, hiv, hr], ?_⟩
        have htl1 : s.timeLeft = 1 := by omega
        simp [tick, h0, hiv, remaining]
        rw [htl1]
        ring
    · refine ⟨by simp [tick, h0, hr], ?_⟩
      cases hiv : s.intervalType <;>
        simp [tick, h0, hiv, remaining] <;> ring

/-- Iterating the clock from a running state with `n + 1` seconds of
workout remaining: the status is still Running after each of the first
`n` ticks and Done after the `(n+1)`-st. -/
theorem tickN_run (n : Nat) :
    ∀ s : AppState, Inv s → s.status = TimerStatus.Running →
      remaining s = (n : Int) + 1 →
      (tickN (n + 1) s).status = TimerStatus.Done ∧
      ∀ k : Nat, k ≤ n → (tickN k s).status = TimerStatus.Running := by
  induction n with
  | zero =>
    intro s hI hr hrem
    constructor
    · have hd := (tick_remaining s hI hr).1 (by simpa using hrem)
      show (tickN 0 (clockTick s).1).status = _
      simpa [tickN, clockTick, hr] using hd
    · intro k hk
      have hk0 : k = 0 := by omega
      subst hk0
      simpa [tickN] using hr
  | succ n ih =>
    intro s hI hr hrem
    have hstep := (tick_remaining s hI hr).2 (by rw [hrem]; push_cast; omega)
    have hI' : Inv (tick s).1 := inv_tick s hI hr
    have hs' : (clockTick s).1 = (tick s).1 := by simp [clockTick, hr]
    have hrem' : remaining (tick s).1 = (n : Int) + 1 := by
      rw [hstep.2, hrem]
      push_cast
      ring
    obtain ⟨hdone, hrun⟩ := ih (tick s).1 hI' hstep.1 hrem'
    constructor
    · show (tickN (n + 1) (clockTick s).1).status = _
      rw [hs']
      exact hdone
    · intro k hk
      cases k with
      | zero => simpa [tickN] using hr
      | succ j =>
        show (tickN j (clockTick s).1).status = _
        rw [hs']
        exact hrun j (by omega)

/-- C2: `totalWorkoutTime` is `moveTime*repetitions +
restTime*(repetitions-1)` (and 0 when `repetitions ≤ 0`), and iterating
the clock from a freshly started workout reaches `Done` after exactly
`totalWorkoutTime` ticks: not one tick earlier, and precisely at that
tick. -/
theorem totalWorkoutTime_ticks (M R P : Int)
    (hM : 1 ≤ M) (hR : 1 ≤ R) (hP : 1 ≤ P) :
    (∀ s : AppState, s.repetitions ≤ 0 → totalWorkoutTime s = 0) ∧
    totalWorkoutTime (freshStart M R P) = M * P + R * (P - 1) ∧
    (tickN (totalWorkoutTime (freshStart M R P)).toNat (freshStart M R P)).status
      = TimerStatus.Done ∧
    ∀ k : Nat, k < (totalWorkoutTime (freshStart M R P)).toNat →
      (tickN k (freshStart M R P)).status ≠ TimerStatus.Done := by
  have hguard : ∀ s : AppState, s.repetitions ≤ 0 → totalWorkoutTime s = 0 := by
    intro s hs
    simp [totalWorkoutTime, hs]
  set T : Int := M * P + R * (P - 1) with hT
  have htot : totalWorkoutTime (freshStart M R P) = T := by
    rw [totalWorkoutTime]
    simp only [freshStart]
    rw [if_neg (by omega)]
  have hT1 : 1 ≤ T := by
    have hk : 0 ≤ R * (P - 1) := mul_nonneg (by omega) (by omega)
    have hm : M ≤ M * P := le_mul_of_one_le_right (by omega) hP
    rw [hT]
    linarith
  have hI : Inv (freshStart M R P) := by
    refine ⟨?_, ?_, ?_, ?_, ?_, ?_, ?_, ?_, ?_, ?_, ?_, ?_, ?_⟩ <;>
      simp [freshStart] <;> omega
  have hrem : remaining (freshStart M R P) = T := by
    simp [remaining, freshStart]
    rw [hT]
    ring
  obtain ⟨hdone, hrun⟩ := tickN_run (T.toNat - 1) (freshStart M R P) hI rfl
    (by rw [hrem]; omega)
  refine ⟨hguard, htot, ?_, ?_⟩
  · have he : T.toNat = (T.toNat - 1) + 1 := by omega
    rw [htot, he]
    exact hdone
  · intro k hk
    rw [htot] at hk
    have hrk := hrun k (by omega)
    simp [hrk]

/-- Witness for C2 at the spec's own scenario: move 3 / rest 2 / 2 reps
completes in exactly 8 ticks. -/
theorem totalWorkoutTime_ticks_witness :
    (tickN (totalWorkoutTime (freshStart 3 2 2)).toNat (freshStart 3 2 2)).status
      = TimerStatus.Done :=
  (totalWorkoutTime_ticks 3 2 2 (by decide) (by decide) (by decide)).2.2.1

end HIIT
